import Mathlib

/-!
Shallow embedding of the passport OCR field-extraction engine
(`ocr_utils.py`): MRZ line decoding, spatial label-to-value matching,
date parsing, merging and text normalization, together with proofs of
the specification claims about them.

Python strings are modelled as Lean `String`s (lists of characters);
`str.strip`, `str.upper`, `str.replace`, membership tests and the
regular-expression searches used by the code are modelled as explicit
character-level functions.  Whitespace is the ASCII whitespace set used
by the regular expressions of the code; `str.upper` is modelled on the
ASCII range (the Japanese label characters that occur in the data are
unaffected by upper-casing).  Pixel coordinates are modelled as
rationals, so the geometric comparisons of the code are exact.
-/

namespace PassportOCR

/-- ASCII whitespace characters (the set matched by the code's uses of
whitespace stripping and the regex class for whitespace). -/
def wsChars : List Char := [' ', '\t', '\n', '\r', '\x0b', '\x0c']

def isWsChar (c : Char) : Bool := wsChars.contains c

def stripLead (l : List Char) : List Char := l.dropWhile isWsChar

def stripTrail (l : List Char) : List Char := (l.reverse.dropWhile isWsChar).reverse

def stripChars (l : List Char) : List Char := stripTrail (stripLead l)

/-- Model of Python `str.strip()`. -/
def pyStrip (s : String) : String := ⟨stripChars s.data⟩

/-- Model of Python `str.upper()` (ASCII range). -/
def pyUpper (s : String) : String := ⟨s.data.map Char.toUpper⟩

/-- Model of Python `s.replace(c, '')` for a single character. -/
def removeChar (c : Char) (s : String) : String := ⟨s.data.filter (fun d => d ≠ c)⟩

/-- Model of Python `s.replace(a, b)` for single characters. -/
def mapChar (a b : Char) (s : String) : String :=
  ⟨s.data.map (fun d => if d = a then b else d)⟩

/-- Model of Python `s.count(c)` for a single character. -/
def countChar (c : Char) (s : String) : Nat := s.data.count c

/-- Containment of `needle` in a list of characters (Python `in`). -/
def subList (needle : List Char) : List Char → Bool
  | [] => needle.isEmpty
  | c :: t => needle.isPrefixOf (c :: t) || subList needle t

/-- Model of Python `needle in hay` for strings. -/
def strContains (hay needle : String) : Bool := subList needle.data hay.data

/-- Characters `0`-`9` (the regex class for a digit; Python's Unicode
digits beyond ASCII are not modelled). -/
def isDigitC (c : Char) : Bool := '0' ≤ c && c ≤ '9'

def isUpperC (c : Char) : Bool := 'A' ≤ c && c ≤ 'Z'

/-- Word character for the regex word-boundary assertion. -/
def isWordC (c : Char) : Bool := c.isAlphanum || c = '_'

/-- Model of Python `str.zfill` for non-negative content. -/
def zfill (n : Nat) (s : String) : String :=
  if s.length < n then ⟨List.replicate (n - s.length) '0' ++ s.data⟩ else s

/-- Worker for substring removal: the counter holds how many characters
of a matched occurrence remain to be dropped. -/
def removeSubGo (old : List Char) : Nat → List Char → List Char
  | _, [] => []
  | Nat.succ n, _ :: t => removeSubGo old n t
  | 0, c :: t =>
    if old ≠ [] && old.isPrefixOf (c :: t) then removeSubGo old (old.length - 1) t
    else c :: removeSubGo old 0 t

/-- Remove every (leftmost, non-overlapping) occurrence of `old`,
modelling Python `s.replace(old, '')`. -/
def removeSubL (old l : List Char) : List Char := removeSubGo old 0 l

def removeSub (old s : String) : String := ⟨removeSubL old.data s.data⟩

/-- The part of `l` after the first occurrence of `needle`
(Python `s.split(needle, 1)[1]`, defined when `needle` occurs). -/
def afterSub (needle : List Char) : List Char → List Char
  | [] => []
  | c :: t =>
    if needle.isPrefixOf (c :: t) then (c :: t).drop needle.length
    else afterSub needle t

/-- Python `str.split()` (split on whitespace runs, dropping empties). -/
def wordsAux : List Char → List Char → List (List Char)
  | acc, [] => if acc = [] then [] else [acc.reverse]
  | acc, c :: t =>
    if isWsChar c then
      (if acc = [] then wordsAux [] t else acc.reverse :: wordsAux [] t)
    else wordsAux (c :: acc) t

def pyWords (s : String) : List String := (wordsAux [] s.data).map (fun l => ⟨l⟩)

/-- Worker for splitting on a separator substring: the counter skips the
characters of a matched separator occurrence. -/
def splitOnGo (sep : List Char) : Nat → List Char → List Char → List (List Char)
  | Nat.succ n, acc, _ :: t => splitOnGo sep n acc t
  | Nat.succ _, acc, [] => [acc.reverse]
  | 0, acc, [] => [acc.reverse]
  | 0, acc, c :: t =>
    if sep ≠ [] && sep.isPrefixOf (c :: t) then
      acc.reverse :: splitOnGo sep (sep.length - 1) [] t
    else splitOnGo sep 0 (c :: acc) t

/-- Model of Python `s.split(sep)` for a non-empty separator. -/
def pySplitOn (sep s : String) : List String :=
  (splitOnGo sep.data 0 [] s.data).map (fun l => (⟨l⟩ : String))

/-- Model of Python `s.startswith(pre)`. -/
def pyStartsWith (pre s : String) : Bool := pre.data.isPrefixOf s.data

/-- Model of Python `sep.join(parts)`. -/
def joinWith (sep : String) : List String → String
  | [] => ""
  | [x] => x
  | x :: y :: t => x ++ sep ++ joinWith sep (y :: t)

/-- Stable insertion of `a` into a list sorted by the total preorder
`le`: `a` goes before the first element it compares `le` to, so earlier
elements with equal keys stay first (Python's stable sort). -/
def insertLe {α : Type} (le : α → α → Bool) (a : α) : List α → List α
  | [] => [a]
  | b :: t => if le a b then a :: b :: t else b :: insertLe le a t

/-- Stable sort by a total preorder (models Python `list.sort(key=...)`). -/
def sortLe {α : Type} (le : α → α → Bool) : List α → List α
  | [] => []
  | a :: t => insertLe le a (sortLe le t)

/-- Index-aware map (used for the fixed-offset MRZ correction). -/
def mapWithIdx (f : Nat → Char → Char) : Nat → List Char → List Char
  | _, [] => []
  | i, c :: t => f i c :: mapWithIdx f (i + 1) t

/-! ### Regular-expression searches used by the code -/

/-- Does a match of the year pattern `(19|20)\d{2}` followed by a word
boundary start at `c :: t`?  (`c` is the first character.) -/
def yearAt (c : Char) (t : List Char) : Bool :=
  match t with
  | c2 :: c3 :: c4 :: rest =>
    ((c = '1' && c2 = '9') || (c = '2' && c2 = '0')) && isDigitC c3 && isDigitC c4 &&
      (match rest with | [] => true | e :: _ => !isWordC e)
  | _ => false

/-- Leftmost match of `\b(19|20)\d{2}\b` (`prev` is the character before
the current scan position, `none` at the start of the string). -/
def findYear (prev : Option Char) : List Char → Option String
  | [] => none
  | c :: t =>
    if (match prev with | none => true | some p => !isWordC p) && yearAt c t then
      some ⟨c :: t.take 3⟩
    else findYear (some c) t

/-- Leftmost match of `\b(\d{1,2})\b` (greedy, with backtracking from the
two-digit to the one-digit alternative). -/
def findDay (prev : Option Char) : List Char → Option String
  | [] => none
  | c :: t =>
    let bBefore : Bool := match prev with | none => true | some p => !isWordC p
    if isDigitC c && bBefore then
      match t with
      | [] => some ⟨[c]⟩
      | d :: t2 =>
        if isDigitC d then
          if (match t2 with | [] => true | e :: _ => !isWordC e) then some ⟨[c, d]⟩
          else findDay (some c) t
        else if !isWordC d then some ⟨[c]⟩
        else findDay (some c) t
    else findDay (some c) t

/-- Leftmost match of `\b([MF])\b`. -/
def findMF (prev : Option Char) : List Char → Option String
  | [] => none
  | c :: t =>
    if (c = 'M' || c = 'F') &&
        (match prev with | none => true | some p => !isWordC p) &&
        (match t with | [] => true | d :: _ => !isWordC d) then
      some ⟨[c]⟩
    else findMF (some c) t

/-- Match of `[A-Z]{2}\s*\d{7}` anchored at `c :: t`: returns the two
letters, the whitespace run and the seven digits. -/
def passAt (c : Char) (t : List Char) : Option (Char × Char × List Char × List Char) :=
  match t with
  | [] => none
  | c2 :: rest =>
    if isUpperC c && isUpperC c2 then
      let sp := rest.takeWhile isWsChar
      let rest2 := rest.drop sp.length
      let digs := rest2.take 7
      if digs.length = 7 && digs.all isDigitC then some (c, c2, sp, digs) else none
    else none

/-- Leftmost match of `[A-Z]{2}\s*\d{7}`. -/
def passScan : List Char → Option (Char × Char × List Char × List Char)
  | [] => none
  | c :: t =>
    match passAt c t with
    | some r => some r
    | none => passScan t

/-! ### Date conversion and parsing -/

/-- The fixed 12-entry month abbreviation table, in source order. -/
def monthMap : List (String × String) :=
  [("JAN", "01"), ("FEB", "02"), ("MAR", "03"), ("APR", "04"), ("MAY", "05"),
   ("JUN", "06"), ("JUL", "07"), ("AUG", "08"), ("SEP", "09"), ("OCT", "10"),
   ("NOV", "11"), ("DEC", "12")]

def twoDigitsToNat (a b : Char) : Nat := (a.toNat - 48) * 10 + (b.toNat - 48)

/-- Model of `convert_yymmdd_to_fmt`.  `currentYY` models
`datetime.now().year % 100` (an input of the computation, since the code
reads the clock). -/
def convertYymmddToFmt (currentYY : Nat) (yymmdd : String) (future : Bool) : String :=
  if yymmdd = "" ∨ yymmdd.length < 6 then yymmdd
  else
    let six := yymmdd.data.take 6
    if !six.all isDigitC then yymmdd
    else
      match six with
      | a :: b :: c :: d :: e :: f :: _ =>
        let y := twoDigitsToNat a b
        let m := twoDigitsToNat c d
        let dd := twoDigitsToNat e f
        if m < 1 ∨ m > 12 then yymmdd
        else
          let fullYear := if future then 2000 + y
                          else if y > currentYY then 1900 + y else 2000 + y
          toString fullYear ++ "/" ++ zfill 2 (toString m) ++ "/" ++ zfill 2 (toString dd)
      | _ => yymmdd

/-- Collapse whitespace runs to single spaces (`re.sub(r'\s+', ' ', s)`). -/
def collapseWsGo : Bool → List Char → List Char
  | _, [] => []
  | prevWs, c :: t =>
    if isWsChar c then
      (if prevWs then collapseWsGo true t else ' ' :: collapseWsGo true t)
    else c :: collapseWsGo false t

/-- The loop over `month_map` inside `parse_date_from_text`. -/
def dateLoop (norm : String) : List (String × String) → String
  | [] => ""
  | (mon, num) :: rest =>
    if strContains norm mon then
      match findYear none norm.data with
      | none => dateLoop norm rest
      | some y =>
        let rem := removeSub y norm
        match findDay none rem.data with
        | some d => y ++ "/" ++ num ++ "/" ++ zfill 2 d
        | none => dateLoop norm rest
    else dateLoop norm rest

/-- Model of `parse_date_from_text`. -/
def parseDateFromText (text : String) : String :=
  let clean : String :=
    ⟨(pyUpper text).data.map (fun c => if isUpperC c || isDigitC c || isWsChar c then c else ' ')⟩
  let norm := pyStrip ⟨collapseWsGo false clean.data⟩
  dateLoop norm monthMap

/-! ### Text normalization (`normalize_text`)

The code applies Python's full Unicode NFKC normalization.  It is
modelled here on a representative character repertoire: a compatibility
decomposition step that maps each character to a sequence (full-width
forms and space variants to their half-width equivalents, and the
diaeresis `\u00A8`, whose decomposition emits a space followed by a
combining mark), followed by canonical composition of adjacent pairs,
covering both base-letter/combining-mark composition and Hangul
conjoining-jamo composition (`L + V` and `LV + T`), which is how NFKC
behaves on these characters.  Characters outside the repertoire are
inert, as the corresponding real characters are. -/

/-- Compatibility decomposition of NFKC restricted to the repertoire
used here: ideographic space and no-break space map to the space
character, full-width Latin capitals map to their ASCII forms, and the
diaeresis decomposes to a space followed by the combining diaeresis. -/
def decompNF (c : Char) : List Char :=
  if c = '\u3000' then [' ']
  else if c = '\u00A0' then [' ']
  else if c = '\u00A8' then [' ', '\u0308']
  else if c = 'Ｋ' then ['K']
  else if c = 'Ａ' then ['A']
  else if c = 'Ｎ' then ['N']
  else if c = 'Ｔ' then ['T']
  else [c]

/-- Combining marks of the model (combining acute and diaeresis). -/
def isCombining (c : Char) : Bool := c = '\u0301' || c = '\u0308'

/-- Hangul conjoining jamo of the model (the L, V and T jamo of the
modelled syllables). -/
def isJamo (c : Char) : Bool := c = '\u1100' || c = '\u1161' || c = '\u11A8'

/-- Canonical composition of an adjacent pair, restricted to the pairs
used here: base letter + combining mark, Hangul `L + V`, and Hangul
`LV + T`. -/
def composePair (a b : Char) : Option Char :=
  if a = 'e' && b = '\u0301' then some '\u00E9'
  else if a = 'a' && b = '\u0308' then some '\u00E4'
  else if a = '\u1100' && b = '\u1161' then some '\uAC00'
  else if a = '\uAC00' && b = '\u11A8' then some '\uAC01'
  else none

/-- Composition pass: a freshly composed character is reconsidered with
the following character, as in canonical composition. -/
def compGo (a : Char) : List Char → List Char
  | [] => [a]
  | b :: rest =>
    match composePair a b with
    | some c => compGo c rest
    | none => a :: compGo b rest

def composeNFC : List Char → List Char
  | [] => []
  | a :: rest => compGo a rest

/-- Model of `unicodedata.normalize('NFKC', s)` on the modelled
repertoire: compatibility decomposition, then canonical composition. -/
def nfkc (l : List Char) : List Char := composeNFC ((l.map decompNF).flatten)

/-- Model of `normalize_text`: NFKC, strip, then remove every internal
space character. -/
def normalizeText (s : String) : String :=
  if s = "" then s
  else ⟨(stripChars (nfkc s.data)).filter (fun c => c ≠ ' ')⟩

/-- Model of `merge_val`: prefer `primary` when non-empty (Python string
truthiness), else `secondary`, else the default. -/
def mergeVal (primary secondary default : String) : String :=
  if primary ≠ "" then primary
  else if secondary ≠ "" then secondary
  else default

/-! ### MRZ parsing (`parse_mrz_text`) -/

/-- Partial field mapping produced by each extraction strategy and by
the merge; a missing entry of the Python dict is the empty string
(both are falsy in the merging code). -/
structure FieldVals where
  passport_no : String := ""
  surname : String := ""
  given_name : String := ""
  birth_date : String := ""
  sex : String := ""
  nationality : String := ""
  domicile : String := ""
  issue_date : String := ""
  expiry_date : String := ""
  raw_mrz : String := ""
deriving DecidableEq, Repr

/-- Bracket characters misread for the MRZ filler. -/
def bracketToFiller (c : Char) : Char :=
  if c = '(' || c = ')' || c = '\x7b' || c = '\x7d' || c = '[' || c = ']' then '<' else c

/-- Candidate MRZ lines: non-empty stripped lines, upper-cased with
spaces removed and brackets mapped to fillers, of length above 10. -/
def mrzCandidates (text : String) : List String :=
  let lines := ((pySplitOn "\n" text).map pyStrip).filter (fun l => l ≠ "")
  (lines.map (fun line =>
    (⟨((removeChar ' ' (pyUpper (pyStrip line))).data.map bracketToFiller)⟩ : String))).filter
    (fun c => c.length > 10)

/-- Line-2 heuristic of strategy 1: length above 20, at least 8 digits,
digit density above 0.4 (the float division modelled exactly on ℚ). -/
def isLine2 (seq : String) : Bool :=
  seq.length > 20 && decide (8 ≤ seq.data.countP (fun c => isDigitC c)) &&
    decide (((seq.data.countP (fun c => isDigitC c) : ℚ) / (seq.length : ℚ)) > 0.4)

/-- Strategy 1: find a digit-dense line 2, accept the immediately
preceding candidate as line 1 if it starts with `P` or has at least two
fillers; otherwise keep scanning. -/
def strat1Go (prev : Option String) : List String → Option (String × String)
  | [] => none
  | seq :: rest =>
    if isLine2 seq then
      match prev with
      | some p =>
        if pyStartsWith "P" p then some (p, seq)
        else if 2 ≤ countChar '<' p then some (p, seq)
        else strat1Go (some seq) rest
      | none => strat1Go (some seq) rest
    else strat1Go (some seq) rest

/-- Strategy 2: find a `P`-led candidate with at least two fillers whose
next candidate has more than five digits. -/
def strat2Go : List String → Option (String × String)
  | [] => none
  | seq :: rest =>
    if pyStartsWith "P" seq && strContains seq "<" && decide (2 ≤ countChar '<' seq) then
      match rest with
      | seq2 :: _ =>
        if 5 < seq2.data.countP (fun c => isDigitC c) then some (seq, seq2)
        else strat2Go rest
      | [] => strat2Go rest
    else strat2Go rest

/-- MRZ line-pair detection: strategy 1, then strategy 2 as fallback. -/
def findMrzLines (text : String) : Option (String × String) :=
  let cands := mrzCandidates text
  match strat1Go none cands with
  | some p => some p
  | none => strat2Go cands

/-- The OCR-confusion substitution applied inside the fixed windows. -/
def mrzFixChar (c : Char) : Char :=
  if c = 'O' then '0'
  else if c = 'I' then '1'
  else if c = 'D' then '0'
  else if c = 'S' then '5'
  else if c = 'B' then '8'
  else if c = 'Z' then '2'
  else c

/-- Index windows of the line-2 correction (birth-date and expiry digits). -/
def fixIdx : List Nat := [13, 14, 15, 16, 17, 18, 21, 22, 23, 24, 25, 26]

/-- Correction of MRZ line 2 at the fixed offset windows. -/
def correctLine2 (s : String) : String :=
  ⟨mapWithIdx (fun i c => if fixIdx.contains i then mrzFixChar c else c) 0 s.data⟩

/-- Line-1 decoding: surname and given name. -/
def mrzLine1Fields (line1 : String) : String × String :=
  if pyStartsWith "P" line1 then
    let content : String := ⟨line1.data.drop 1⟩
    let parts := pySplitOn "<<" content
    let surPart := parts.headD ""
    let cleanS := removeChar '<' surPart
    let surname :=
      if strContains cleanS "JPN" then pyStrip ⟨afterSub "JPN".data cleanS.data⟩
      else if 5 < cleanS.length then (⟨cleanS.data.drop 5⟩ : String)
      else cleanS
    let given :=
      match parts with
      | _ :: g :: _ => pyStrip (mapChar '<' ' ' g)
      | _ => ""
    (surname, given)
  else ("", "")

/-- Line-2 decoding: passport number, birth date, sex, expiry date.
The index access `line2[20]` is in range only when the length exceeds
20; otherwise the surrounding `try` turns the out-of-range access into
leaving sex and expiry unset while keeping the birth date. -/
def mrzLine2Fields (currentYY : Nat) (line2 : String) : String × String × String × String :=
  let passportNo :=
    if 9 ≤ line2.length && (line2.data.take 9).all (fun c => isUpperC c || isDigitC c) then
      (⟨(line2.data.take 9).filter (fun c => c ≠ '<')⟩ : String)
    else ""
  if 19 < line2.length then
    let dob : String := ⟨(line2.data.drop 13).take 6⟩
    let birth :=
      if dob ≠ "" && dob.data.all isDigitC then convertYymmddToFmt currentYY dob false else ""
    if 20 < line2.length then
      let sex : String := ⟨[(line2.data.drop 20).headD '?']⟩
      let exp : String := ⟨(line2.data.drop 21).take 6⟩
      let expiry :=
        if exp ≠ "" && exp.data.all isDigitC then convertYymmddToFmt currentYY exp true else ""
      (passportNo, birth, sex, expiry)
    else (passportNo, birth, "", "")
  else (passportNo, "", "", "")

/-- Model of `parse_mrz_text`. -/
def parseMrzText (currentYY : Nat) (text : String) : FieldVals :=
  match findMrzLines text with
  | none => {}
  | some (line1, rawL2) =>
    let rawMrz := line1 ++ "\n" ++ rawL2
    let line2 := correctLine2 rawL2
    let sg := mrzLine1Fields line1
    let pbse := mrzLine2Fields currentYY line2
    { passport_no := pbse.1, surname := sg.1, given_name := sg.2,
      birth_date := pbse.2.1, sex := pbse.2.2.1, expiry_date := pbse.2.2.2,
      raw_mrz := rawMrz }

/-! ### Layout-based parsing (`parse_viz_layout`) -/

structure Vtx where
  x : ℚ
  y : ℚ
deriving DecidableEq, Repr

/-- The four vertices of a token's bounding quadrilateral. -/
structure Poly where
  v0 : Vtx
  v1 : Vtx
  v2 : Vtx
  v3 : Vtx
deriving DecidableEq, Repr

/-- One recognized token of the OCR response. -/
structure Ann where
  description : String
  boundingPoly : Poly
deriving DecidableEq, Repr

def vxList (a : Ann) : List ℚ :=
  [a.boundingPoly.v0.x, a.boundingPoly.v1.x, a.boundingPoly.v2.x, a.boundingPoly.v3.x]

def vyList (a : Ann) : List ℚ :=
  [a.boundingPoly.v0.y, a.boundingPoly.v1.y, a.boundingPoly.v2.y, a.boundingPoly.v3.y]

/-- Center of a token (`get_center`): vertex average (division by 4 as
in the code). -/
def centerX (a : Ann) : ℚ := (vxList a).sum / 4

def centerY (a : Ann) : ℚ := (vyList a).sum / 4

/-- Bounding box of a token (`get_bbox`). -/
def bbMinX (a : Ann) : ℚ := min (min a.boundingPoly.v0.x a.boundingPoly.v1.x) (min a.boundingPoly.v2.x a.boundingPoly.v3.x)

def bbMaxX (a : Ann) : ℚ := max (max a.boundingPoly.v0.x a.boundingPoly.v1.x) (max a.boundingPoly.v2.x a.boundingPoly.v3.x)

def bbMinY (a : Ann) : ℚ := min (min a.boundingPoly.v0.y a.boundingPoly.v1.y) (min a.boundingPoly.v2.y a.boundingPoly.v3.y)

def bbMaxY (a : Ann) : ℚ := max (max a.boundingPoly.v0.y a.boundingPoly.v1.y) (max a.boundingPoly.v2.y a.boundingPoly.v3.y)

/-- Static label target configuration (the `pat` field is carried but,
as in the code's loop, never consulted). -/
structure TargetCfg where
  key : String
  labels : List String
  pat : String

/-- The label target table, in source order. -/
def targets : List TargetCfg :=
  [⟨"passport_no", ["Passport", "No", "旅券番号"], "([A-Z]\x7b2\x7d\\s*\\d\x7b7\x7d)"⟩,
   ⟨"surname", ["Surname", "姓"], "([A-Z]+)"⟩,
   ⟨"given_name", ["Given", "名"], "([A-Z]+)"⟩,
   ⟨"nationality", ["Nationality", "国籍"], "(JAPAN|JPN)"⟩,
   ⟨"birth_date", ["Birth", "生年月日"], "date"⟩,
   ⟨"sex", ["Sex", "性別"], "[MF]"⟩,
   ⟨"issue_date", ["Issue", "発行年月日"], "date"⟩,
   ⟨"domicile", ["Registered", "Domicile", "本籍"], "([A-Z]+)"⟩,
   ⟨"expiry_date", ["Expiry", "有効期間満了日"], "date"⟩]

/-- The fixed bilingual stop-word set. -/
def stopWords : List String :=
  ["NAME", "SURNAME", "GIVEN", "DATE", "BIRTH", "EXPIRY", "SEX", "NATIONALITY",
   "PASSPORT", "NO", "JAPAN", "ISSUING", "COUNTRY", "MINISTRY", "FOREIGN",
   "AFFAIRS", "REGISTERED", "DOMICILE", "SIGNATURE", "BEARER", "AUTHORITY",
   "TYPE", "JPN", "ISSUE", "旅券番号", "姓", "名", "国籍", "生年月日", "性別",
   "有効期間満了日", "所持人自署", "発行官庁", "型", "発行国", "本籍", "発行年月日"]

/-- Normalization of a token's text for label matching:
`strip`, `upper`, drop `.` and `:` (in source order). -/
def labelNorm (s : String) : String := removeChar ':' (removeChar '.' (pyUpper (pyStrip s)))

/-- Normalization of a label string (`lbl.upper().replace('.', '').replace(':', '')`). -/
def lblUpper (lbl : String) : String := removeChar ':' (removeChar '.' (pyUpper lbl))

/-- Exact match for short labels, containment for labels longer than 3. -/
def labelMatches (lbl text : String) : Bool :=
  let lu := lblUpper lbl
  lu = text || (3 < lu.length && strContains text lu)

/-- Tokens matched as labels of a target, in token order (a token is
recorded once per matching label, as in the appending loop). -/
def matchedLabels (anns : List Ann) (tgt : TargetCfg) : List Ann :=
  anns.foldr
    (fun a acc =>
      (tgt.labels.filterMap
        (fun lbl => if labelMatches lbl (labelNorm a.description) then some a else none)) ++ acc)
    []

/-- Reading order on tokens: by `(top, left)` of the bounding box. -/
def annLe (a b : Ann) : Bool :=
  decide (bbMinY a < bbMinY b) ||
    (decide (bbMinY a = bbMinY b) && decide (bbMinX a ≤ bbMinX b))

/-- Normalization used by the candidate-loop stop-word skip:
`upper`, drop `.` and `:`, then `strip`. -/
def stopNorm (a : Ann) : String :=
  pyStrip (removeChar ':' (removeChar '.' (pyUpper a.description)))

/-- The geometric value-candidate test for direction BELOW
(the body of the candidate loop): strictly more than 10% of the anchor
height below the anchor top, vertical gap under 2.5 anchor heights, and
center strictly inside the asymmetric horizontal window. -/
def isCandidateBelow (base a : Ann) : Bool :=
  let baseH := bbMaxY base - bbMinY base
  let baseW := bbMaxX base - bbMinX base
  decide (bbMinY a > bbMinY base + baseH * 0.1) &&
    decide (bbMinY a - bbMaxY base < baseH * 2.5) &&
    (decide (bbMinX base - baseW * 8 < centerX a) && decide (centerX a < bbMaxX base + baseW * 5))

/-- Candidate filtering around a base label: skip the base itself, skip
stop-word tokens (unless the key is nationality), keep tokens passing
the geometric test. -/
def roiCandidates (anns : List Ann) (key : String) (base : Ann) : List Ann :=
  anns.filter
    (fun a =>
      !(a == base) &&
        (key == "nationality" || !(stopWords.contains (stopNorm a))) &&
        isCandidateBelow base a)

/-- Field-name fragments whose containment halts collection for
non-name keys. -/
def jpFrags : List String := ["名", "姓", "国籍", "生年月日", "性別", "有効期間"]

/-- Normalized word used for the stop-word halt in the collection loop. -/
def wUpperOf (a : Ann) : String := removeChar '.' (pyUpper (pyStrip a.description))

/-- The collection loop over sorted candidates: halt at a stop word
(unless the key is nationality), halt at a long token containing a
field-name fragment (unless the key is a name field), otherwise append. -/
def collectGo (key : String) (acc : String) : List Ann → String
  | [] => acc
  | a :: rest =>
    let word := pyStrip a.description
    let wUp := removeChar '.' (pyUpper word)
    if key ≠ "nationality" && stopWords.contains wUp then acc
    else if (jpFrags.any (fun sw => strContains word sw)) && decide (1 < word.length) &&
        !(key == "surname" || key == "given_name") then acc
    else collectGo key (acc ++ " " ++ word) rest

/-- Combined candidate text for a key (joined with spaces, stripped). -/
def collectValueText (key : String) (cands : List Ann) : String :=
  pyStrip (collectGo key "" cands)

/-- The 47 romanized prefecture names, in the source's literal order. -/
def prefNames : List String :=
  ["HOKKAIDO", "AOMORI", "IWATE", "MIYAGI", "AKITA", "YAMAGATA", "FUKUSHIMA",
   "IBARAKI", "TOCHIGI", "GUNMA", "SAITAMA", "CHIBA", "TOKYO", "KANAGAWA",
   "NIIGATA", "TOYAMA", "ISHIKAWA", "FUKUI", "YAMANASHI", "NAGANO", "GIFU",
   "SHIZUOKA", "AICHI", "MIE", "SHIGA", "KYOTO", "OSAKA", "HYOGO", "NARA",
   "WAKAYAMA", "TOTTORI", "SHIMANE", "OKAYAMA", "HIROSHIMA", "YAMAGUCHI",
   "TOKUSHIMA", "KAGAWA", "EHIME", "KOCHI", "FUKUOKA", "SAGA", "NAGASAKI",
   "KUMAMOTO", "OITA", "MIYAZAKI", "KAGOSHIMA", "OKINAWA"]

/-- Japanese label characters of the domicile truncation class. -/
def jpDateChars : List Char := ['発', '行', '年', '月', '日']

/-- The domicile cleaner: prefecture whitelist first, then the
noise-stripping fallback. -/
def domicileClean (combined : String) : Option String :=
  let upperT := pyUpper combined
  match prefNames.find? (fun p => strContains upperT p) with
  | some p => some p
  | none =>
    let cv := pyStrip ⟨combined.data.filter
      (fun c => !(c = '*' || isDigitC c || c = '<' || c = ':' || c = ';' || c = ',' || c = '.'))⟩
    let cv2 :=
      if cv.data.any (fun c => jpDateChars.contains c) then
        pyStrip ⟨cv.data.takeWhile (fun c => !jpDateChars.contains c)⟩
      else cv
    let parts := (pyWords cv2).filter (fun w => 1 < w.length)
    if parts ≠ [] then some (joinWith " " parts) else none

/-- Worker for `/`-led letter-run deletion: the flag records whether the
scan is inside a letter run opened by a slash. -/
def delSlashGo : Bool → List Char → List Char
  | _, [] => []
  | inRun, c :: t =>
    if c = '/' then delSlashGo true t
    else if inRun && c.isAlpha then delSlashGo true t
    else c :: delSlashGo false t

/-- Deletion of `/`-led letter runs (`re.sub(r'/[a-zA-Z]*', '', s)`). -/
def delSlash (l : List Char) : List Char := delSlashGo false l

/-- The per-key cleaner applied to the combined candidate text. -/
def vizValueFor (key : String) (combined : String) : Option String :=
  if key = "birth_date" || key = "expiry_date" || key = "issue_date" then
    let d := parseDateFromText combined
    if d ≠ "" then some d else none
  else if key = "sex" then findMF none (pyUpper combined).data
  else if key = "nationality" then
    if strContains (pyUpper combined) "JAPAN" || strContains (pyUpper combined) "JPN" then
      some "JPN"
    else none
  else if key = "domicile" then domicileClean combined
  else if key = "passport_no" then
    match passScan combined.data with
    | some (c1, c2, sp, digs) => some ⟨(c1 :: c2 :: (sp ++ digs)).filter (fun c => c ≠ ' ')⟩
    | none => none
  else
    let cv := pyStrip ⟨combined.data.filter
      (fun c => !(isDigitC c || c = '<' || c = ':' || c = ';' || c = ',' || c = '.'))⟩
    let cv2 := pyStrip ⟨delSlash cv.data⟩
    if cv2 ≠ "" then some cv2 else none

/-- Value extraction for one target: base label selection in reading
order, candidate filtering, collection, cleaning. -/
def vizExtract (anns : List Ann) (tgt : TargetCfg) : Option String :=
  match sortLe annLe (matchedLabels anns tgt) with
  | [] => none
  | base :: _ =>
    let roi := roiCandidates anns tgt.key base
    if roi.isEmpty then none
    else vizValueFor tgt.key (collectValueText tgt.key (sortLe annLe roi))

def vizFieldOf (anns : List Ann) (k : String) : String :=
  match targets.find? (fun t => t.key == k) with
  | some t => (vizExtract anns t).getD ""
  | none => ""

/-- Model of `parse_viz_layout`, including the full-text fallback for
the passport number. -/
def parseVizLayout (anns : List Ann) (fullT : String) : FieldVals :=
  let pno := vizFieldOf anns "passport_no"
  let pno2 :=
    if pno = "" ∧ fullT ≠ "" then
      match passScan fullT.data with
      | some (c1, c2, _, digs) => (⟨c1 :: c2 :: digs⟩ : String)
      | none => ""
    else pno
  { passport_no := pno2,
    surname := vizFieldOf anns "surname",
    given_name := vizFieldOf anns "given_name",
    nationality := vizFieldOf anns "nationality",
    birth_date := vizFieldOf anns "birth_date",
    sex := vizFieldOf anns "sex",
    issue_date := vizFieldOf anns "issue_date",
    domicile := vizFieldOf anns "domicile",
    expiry_date := vizFieldOf anns "expiry_date",
    raw_mrz := "" }

/-! ### `parse_response`: extraction, merge, normalization -/

/-- An OCR response: the token list, whose first entry is the full-text
blob annotation. -/
structure Response where
  textAnns : List Ann
deriving DecidableEq, Repr

def fullTextOf (r : Response) : String :=
  match r.textAnns with
  | [] => ""
  | a :: _ => a.description

def annsOf (r : Response) : List Ann :=
  if 1 < r.textAnns.length then r.textAnns.drop 1 else []

def mrzOf (currentYY : Nat) (r : Response) : FieldVals :=
  parseMrzText currentYY (fullTextOf r)

def vizOf (r : Response) : FieldVals :=
  parseVizLayout (annsOf r) (fullTextOf r)

/-- Model of `parse_response`: merge with per-field precedence, then
normalization; `raw_mrz` is taken from the MRZ extractor verbatim. -/
def parseResponse (currentYY : Nat) (r : Response) : FieldVals :=
  let mrz := mrzOf currentYY r
  let viz := vizOf r
  { passport_no := normalizeText (mergeVal viz.passport_no mrz.passport_no ""),
    birth_date := normalizeText (mergeVal viz.birth_date mrz.birth_date ""),
    expiry_date := normalizeText (mergeVal viz.expiry_date mrz.expiry_date ""),
    issue_date := normalizeText (mergeVal viz.issue_date mrz.issue_date ""),
    sex := normalizeText (mergeVal viz.sex mrz.sex ""),
    nationality := normalizeText (mergeVal viz.nationality mrz.nationality "JPN"),
    domicile := normalizeText (mergeVal viz.domicile mrz.domicile ""),
    surname := normalizeText (mergeVal mrz.surname viz.surname ""),
    given_name := normalizeText (mergeVal mrz.given_name viz.given_name ""),
    raw_mrz := (mrzOf currentYY r).raw_mrz }

/-- The returned dictionary as a key-value list, in the source's
construction order. -/
def parseResponseDict (currentYY : Nat) (r : Response) : List (String × String) :=
  let d := parseResponse currentYY r
  [("passport_no", d.passport_no), ("birth_date", d.birth_date),
   ("expiry_date", d.expiry_date), ("issue_date", d.issue_date),
   ("sex", d.sex), ("nationality", d.nationality), ("domicile", d.domicile),
   ("surname", d.surname), ("given_name", d.given_name), ("raw_mrz", d.raw_mrz)]

/-! ### Concrete inputs used by the claim proofs -/

/-- Axis-aligned rectangle as a bounding quadrilateral. -/
def rectPoly (x1 y1 x2 y2 : ℚ) : Poly := ⟨⟨x1, y1⟩, ⟨x2, y1⟩, ⟨x2, y2⟩, ⟨x1, y2⟩⟩

def givenBlobAnn : Ann := ⟨"Given\nTARO JIRO", rectPoly 0 0 0 0⟩

def givenLabelAnn : Ann := ⟨"Given", rectPoly 0 0 10 10⟩

def taroAnn : Ann := ⟨"TARO", rectPoly 0 12 10 14⟩

def jiroAnn : Ann := ⟨"JIRO", rectPoly 12 12 22 14⟩

/-- A response with a `Given` label and two value tokens directly below. -/
def respTaroJiro : Response := ⟨[givenBlobAnn, givenLabelAnn, taroAnn, jiroAnn]⟩

def mrzLine1Ex : String := "P<JPNTANAKA<<TARO<<<<<<<<<<<<<<<<<<<<<<<<<<<"

/-- A clean MRZ line 2 whose expiry digits are `200299` (day 99). -/
def mrzLine2Ex : String := "TZ12345678JPN4001012M2002993<<<<<<<<<<<<<<06"

/-- A response holding only the full-text blob with the MRZ block. -/
def respMrzEx : Response := ⟨[⟨mrzLine1Ex ++ "\n" ++ mrzLine2Ex, rectPoly 0 0 0 0⟩]⟩

/-- MRZ line 2 with a misread `O` at offset 14, inside the birth-date
correction window. -/
def mrzLine2WithO : String := "TZ12345678JPN4O01012M2002993<<<<<<<<<<<<<<06"

def mrzTextWithO : String := mrzLine1Ex ++ "\n" ++ mrzLine2WithO

/-- MRZ line 2 whose leading alphanumeric run (`TZ123`) is cut short by
a filler before position 9. -/
def mrzLine2ShortRun : String := "TZ123<5678JPN4001012M2002993<<<<<<<<<<<<<<06"

def mrzTextShortRun : String := mrzLine1Ex ++ "\n" ++ mrzLine2ShortRun

/-- A stop-word token (`DATE`) placed after the value tokens. -/
def dateStopAnn : Ann := ⟨"DATE", rectPoly 0 16 10 18⟩

def anchorEx : Ann := ⟨"Passport", rectPoly 0 0 10 10⟩

/-- A token whose top edge sits exactly 10% of the anchor height below
the anchor top (the boundary case of the candidate test). -/
def boundaryTokEx : Ann := ⟨"TOKEN", rectPoly 0 1 10 3⟩

/-- The candidate test in the spec's wording: top edge at least 10% of
the anchor height below the anchor top, vertical gap under 2.5 anchor
heights, and horizontal center within the closed interval from
`anchorLeft - 8 width` to `anchorRight + 5 width`. -/
def candidateBelowClaim (base a : Ann) : Bool :=
  let baseH := bbMaxY base - bbMinY base
  let baseW := bbMaxX base - bbMinX base
  decide (bbMinY a ≥ bbMinY base + baseH * 0.1) &&
    decide (bbMinY a - bbMaxY base < baseH * 2.5) &&
    (decide (bbMinX base - baseW * 8 ≤ centerX a) && decide (centerX a ≤ bbMaxX base + baseW * 5))

/-! ### Helper lemmas -/

/-- The three merge cases behind the per-field precedence, composed with
the final normalization pass of `parse_response`. -/
theorem mergeNormCases (p s d : String) :
    (p ≠ "" → normalizeText (mergeVal p s d) = normalizeText p) ∧
    (p = "" → s ≠ "" → normalizeText (mergeVal p s d) = normalizeText s) ∧
    (p = "" → s = "" → normalizeText (mergeVal p s d) = normalizeText d) := by
  refine ⟨fun h => ?_, fun h1 h2 => ?_, fun h1 h2 => ?_⟩ <;> simp [mergeVal, *]

/-! ### Claims -/

set_option maxHeartbeats 2000000 in
/-- C1: For every annotation input, the merged record obeys the
per-field precedence table: surname and given name prefer the MRZ value
when non-empty and fall back to the spatial value; passport number,
birth/expiry/issue dates, sex, nationality and domicile prefer the
spatial value when non-empty and fall back to the MRZ value;
nationality is `JPN` when both sources are empty, every other field
defaults to the empty string.  (The record stores the winning value
after the final normalization pass, as in `parse_response`.) -/
theorem c1_merge_precedence (cy : Nat) (r : Response) :
    ((mrzOf cy r).surname ≠ "" →
      (parseResponse cy r).surname = normalizeText (mrzOf cy r).surname) ∧
    ((mrzOf cy r).surname = "" → (vizOf r).surname ≠ "" →
      (parseResponse cy r).surname = normalizeText (vizOf r).surname) ∧
    ((mrzOf cy r).surname = "" → (vizOf r).surname = "" →
      (parseResponse cy r).surname = "") ∧
    ((mrzOf cy r).given_name ≠ "" →
      (parseResponse cy r).given_name = normalizeText (mrzOf cy r).given_name) ∧
    ((mrzOf cy r).given_name = "" → (vizOf r).given_name ≠ "" →
      (parseResponse cy r).given_name = normalizeText (vizOf r).given_name) ∧
    ((mrzOf cy r).given_name = "" → (vizOf r).given_name = "" →
      (parseResponse cy r).given_name = "") ∧
    ((vizOf r).passport_no ≠ "" →
      (parseResponse cy r).passport_no = normalizeText (vizOf r).passport_no) ∧
    ((vizOf r).passport_no = "" → (mrzOf cy r).passport_no ≠ "" →
      (parseResponse cy r).passport_no = normalizeText (mrzOf cy r).passport_no) ∧
    ((vizOf r).passport_no = "" → (mrzOf cy r).passport_no = "" →
      (parseResponse cy r).passport_no = "") ∧
    ((vizOf r).birth_date ≠ "" →
      (parseResponse cy r).birth_date = normalizeText (vizOf r).birth_date) ∧
    ((vizOf r).birth_date = "" → (mrzOf cy r).birth_date ≠ "" →
      (parseResponse cy r).birth_date = normalizeText (mrzOf cy r).birth_date) ∧
    ((vizOf r).birth_date = "" → (mrzOf cy r).birth_date = "" →
      (parseResponse cy r).birth_date = "") ∧
    ((vizOf r).expiry_date ≠ "" →
      (parseResponse cy r).expiry_date = normalizeText (vizOf r).expiry_date) ∧
    ((vizOf r).expiry_date = "" → (mrzOf cy r).expiry_date ≠ "" →
      (parseResponse cy r).expiry_date = normalizeText (mrzOf cy r).expiry_date) ∧
    ((vizOf r).expiry_date = "" → (mrzOf cy r).expiry_date = "" →
      (parseResponse cy r).expiry_date = "") ∧
    ((vizOf r).issue_date ≠ "" →
      (parseResponse cy r).issue_date = normalizeText (vizOf r).issue_date) ∧
    ((vizOf r).issue_date = "" → (mrzOf cy r).issue_date ≠ "" →
      (parseResponse cy r).issue_date = normalizeText (mrzOf cy r).issue_date) ∧
    ((vizOf r).issue_date = "" → (mrzOf cy r).issue_date = "" →
      (parseResponse cy r).issue_date = "") ∧
    ((vizOf r).sex ≠ "" →
      (parseResponse cy r).sex = normalizeText (vizOf r).sex) ∧
    ((vizOf r).sex = "" → (mrzOf cy r).sex ≠ "" →
      (parseResponse cy r).sex = normalizeText (mrzOf cy r).sex) ∧
    ((vizOf r).sex = "" → (mrzOf cy r).sex = "" →
      (parseResponse cy r).sex = "") ∧
    ((vizOf r).domicile ≠ "" →
      (parseResponse cy r).domicile = normalizeText (vizOf r).domicile) ∧
    ((vizOf r).domicile = "" → (mrzOf cy r).domicile ≠ "" →
      (parseResponse cy r).domicile = normalizeText (mrzOf cy r).domicile) ∧
    ((vizOf r).domicile = "" → (mrzOf cy r).domicile = "" →
      (parseResponse cy r).domicile = "") ∧
    ((vizOf r).nationality ≠ "" →
      (parseResponse cy r).nationality = normalizeText (vizOf r).nationality) ∧
    ((vizOf r).nationality = "" → (mrzOf cy r).nationality ≠ "" →
      (parseResponse cy r).nationality = normalizeText (mrzOf cy r).nationality) ∧
    ((vizOf r).nationality = "" → (mrzOf cy r).nationality = "" →
      (parseResponse cy r).nationality = "JPN") :=
  ⟨(mergeNormCases (mrzOf cy r).surname (vizOf r).surname "").1,
   (mergeNormCases (mrzOf cy r).surname (vizOf r).surname "").2.1,
   (mergeNormCases (mrzOf cy r).surname (vizOf r).surname "").2.2,
   (mergeNormCases (mrzOf cy r).given_name (vizOf r).given_name "").1,
   (mergeNormCases (mrzOf cy r).given_name (vizOf r).given_name "").2.1,
   (mergeNormCases (mrzOf cy r).given_name (vizOf r).given_name "").2.2,
   (mergeNormCases (vizOf r).passport_no (mrzOf cy r).passport_no "").1,
   (mergeNormCases (vizOf r).passport_no (mrzOf cy r).passport_no "").2.1,
   (mergeNormCases (vizOf r).passport_no (mrzOf cy r).passport_no "").2.2,
   (mergeNormCases (vizOf r).birth_date (mrzOf cy r).birth_date "").1,
   (mergeNormCases (vizOf r).birth_date (mrzOf cy r).birth_date "").2.1,
   (mergeNormCases (vizOf r).birth_date (mrzOf cy r).birth_date "").2.2,
   (mergeNormCases (vizOf r).expiry_date (mrzOf cy r).expiry_date "").1,
   (mergeNormCases (vizOf r).expiry_date (mrzOf cy r).expiry_date "").2.1,
   (mergeNormCases (vizOf r).expiry_date (mrzOf cy r).expiry_date "").2.2,
   (mergeNormCases (vizOf r).issue_date (mrzOf cy r).issue_date "").1,
   (mergeNormCases (vizOf r).issue_date (mrzOf cy r).issue_date "").2.1,
   (mergeNormCases (vizOf r).issue_date (mrzOf cy r).issue_date "").2.2,
   (mergeNormCases (vizOf r).sex (mrzOf cy r).sex "").1,
   (mergeNormCases (vizOf r).sex (mrzOf cy r).sex "").2.1,
   (mergeNormCases (vizOf r).sex (mrzOf cy r).sex "").2.2,
   (mergeNormCases (vizOf r).domicile (mrzOf cy r).domicile "").1,
   (mergeNormCases (vizOf r).domicile (mrzOf cy r).domicile "").2.1,
   (mergeNormCases (vizOf r).domicile (mrzOf cy r).domicile "").2.2,
   (mergeNormCases (vizOf r).nationality (mrzOf cy r).nationality "JPN").1,
   (mergeNormCases (vizOf r).nationality (mrzOf cy r).nationality "JPN").2.1,
   (mergeNormCases (vizOf r).nationality (mrzOf cy r).nationality "JPN").2.2⟩

/-- Witness for C1 at a concrete MRZ-only response: the MRZ surname is
non-empty and the merged surname is its normalized value. -/
theorem c1_merge_precedence_witness :
    (mrzOf 26 respMrzEx).surname ≠ "" ∧
    (parseResponse 26 respMrzEx).surname = normalizeText (mrzOf 26 respMrzEx).surname :=
  ⟨by decide!, (c1_merge_precedence 26 respMrzEx).1 (by decide!)⟩

/-- C2: For every input response (with or without annotations) the
returned mapping carries exactly the ten keys, in the construction
order of the source dictionary; every value is a `String` of the model
by construction, and the computation is total (`parseResponseDict` is a
total function). -/
theorem c2_fully_keyed_record (cy : Nat) (r : Response) :
    (parseResponseDict cy r).map Prod.fst =
      ["passport_no", "birth_date", "expiry_date", "issue_date", "sex",
       "nationality", "domicile", "surname", "given_name", "raw_mrz"] := rfl

/-- C3 counterexample: for the detected MRZ pair of `mrzTextWithO`
(line 2 carries `O` at offset 14, inside a correction window),
`raw_mrz` is not the corrected join: it holds the uncorrected line 2. -/
theorem c3_raw_mrz_counterexample :
    findMrzLines mrzTextWithO = some (mrzLine1Ex, mrzLine2WithO) ∧
    (parseMrzText 26 mrzTextWithO).raw_mrz ≠
      mrzLine1Ex ++ "\n" ++ correctLine2 mrzLine2WithO ∧
    (parseMrzText 26 mrzTextWithO).raw_mrz = mrzLine1Ex ++ "\n" ++ mrzLine2WithO := by
  refine ⟨by decide!, by decide!, by decide!⟩

/-- C3 (amended): `raw_mrz` is the two detected MRZ lines (normalized:
space-stripped, upper-cased, brackets mapped to fillers) joined by a
line break, before the OCR-confusion correction is applied to line 2;
it is empty when no MRZ pair is detected. -/
theorem c3_raw_mrz_join (cy : Nat) (text : String) :
    (parseMrzText cy text).raw_mrz =
      (match findMrzLines text with
       | some (l1, l2) => l1 ++ "\n" ++ l2
       | none => "") := by
  cases h : findMrzLines text with
  | none => simp [parseMrzText, h]
  | some p => cases p with
    | mk l1 l2 => simp [parseMrzText, h]

/-- C4: of the three spec examples, `13 FEB 2020` and `FEB 13 2020`
parse to `2020/02/13`, but `13FEB 2020` parses to the empty string (the
day regex requires a standalone 1-2 digit number, and `13FEB` has no
word boundary after `13`), contradicting the code's own comment listing
this variant; a month with no 4-digit year also yields the empty
string (separate conjunct at a concrete input). -/
theorem c4_date_variants :
    parseDateFromText "13 FEB 2020" = "2020/02/13" ∧
    parseDateFromText "13FEB 2020" = "" ∧
    parseDateFromText "FEB 13 2020" = "2020/02/13" ∧
    parseDateFromText "13 FEB 99" = "" := by
  refine ⟨by decide!, by decide!, by decide!, by decide!⟩

/-- C6: on an MRZ whose line-2 leading alphanumeric run is `TZ123`
(cut short by a filler), the pair is detected but the extractor yields
no passport number at all, instead of the shorter run demanded by the
spec (the `[A-Z0-9]{9}` match requires nine characters, so the
filler-stripping `replace` can never see a filler). -/
theorem c6_short_run_no_passport :
    findMrzLines mrzTextShortRun = some (mrzLine1Ex, mrzLine2ShortRun) ∧
    (correctLine2 mrzLine2ShortRun).data.takeWhile
      (fun c => isUpperC c || isDigitC c) = "TZ123".data ∧
    (parseMrzText 26 mrzTextShortRun).passport_no = "" := by
  refine ⟨by decide!, by decide!, by decide!⟩

/-- C7 counterexample: a token whose top edge sits exactly 10% of the
anchor height below the anchor top satisfies the claim's boundary
conditions (at-least / closed interval) but is rejected by the code's
strict comparison. -/
theorem c7_boundary_counterexample :
    candidateBelowClaim anchorEx boundaryTokEx = true ∧
    isCandidateBelow anchorEx boundaryTokEx = false := by
  refine ⟨by decide!, by decide!⟩

/-- C7 (amended): the geometric candidate test holds exactly when the
token's top edge is strictly more than 10% of the anchor height below
the anchor top, the vertical gap is under 2.5 anchor heights, and the
center lies strictly inside the open horizontal window. -/
theorem c7_candidate_geometry (base a : Ann) :
    isCandidateBelow base a = true ↔
      (bbMinY a > bbMinY base + (bbMaxY base - bbMinY base) * 0.1 ∧
       bbMinY a - bbMaxY base < (bbMaxY base - bbMinY base) * 2.5 ∧
       bbMinX base - (bbMaxX base - bbMinX base) * 8 < centerX a ∧
       centerX a < bbMaxX base + (bbMaxX base - bbMinX base) * 5) := by
  simp [isCandidateBelow, and_assoc]

/-- C10: no day-of-month validation: a record whose MRZ expiry digits
are `200299` yields the merged expiry date `2020/02/99`; the date text
parser accepts `99` as a day, and the two-digit converter checks only
the month range. -/
theorem c10_no_day_validation :
    (parseResponse 26 respMrzEx).expiry_date = "2020/02/99" ∧
    parseDateFromText "99 FEB 2020" = "2020/02/99" ∧
    convertYymmddToFmt 26 "200299" true = "2020/02/99" := by
  refine ⟨by decide!, by decide!, by decide!⟩

/-- Halting lemma for the collection loop: a stop-word token freezes the
accumulated text, whatever follows it. -/
theorem collectGo_stop_append (key : String) (t : Ann) (l1 l2 : List Ann)
    (hk : key ≠ "nationality")
    (ht : stopWords.contains (wUpperOf t) = true) :
    ∀ acc : String, collectGo key acc (l1 ++ t :: l2) = collectGo key acc l1 := by
  induction l1 with
  | nil =>
    intro acc
    simp only [List.nil_append]
    simp only [wUpperOf] at ht
    have ht2 : removeChar '.' (pyUpper (pyStrip t.description)) ∈ stopWords := by
      simpa using ht
    simp [collectGo, decide_eq_true hk, ht2]
  | cons b l1 ih =>
    intro acc
    simp only [List.cons_append]
    rw [collectGo, collectGo]
    split
    · rfl
    · split
      · rfl
      · exact ih _

/-- C5: for every key other than nationality, candidate collection
halts at the first stop-word token: the combined value text of a
candidate list with a stop-word token somewhere is the combined value
text of the part before that token (so neither the stop-word token nor
anything after it contributes). -/
theorem c5_stop_word_halts (key : String) (t : Ann) (l1 l2 : List Ann)
    (hk : key ≠ "nationality")
    (ht : stopWords.contains (wUpperOf t) = true) :
    collectValueText key (l1 ++ t :: l2) = collectValueText key l1 := by
  unfold collectValueText
  rw [collectGo_stop_append key t l1 l2 hk ht]

/-- Witness for C5 at concrete tokens: `DATE` is a stop word, and with
candidates `TARO, DATE, JIRO` for the surname key, collection stops
before `DATE`. -/
theorem c5_stop_word_halts_witness :
    ("surname" ≠ "nationality" ∧ stopWords.contains (wUpperOf dateStopAnn) = true) ∧
    collectValueText "surname" ([taroAnn] ++ dateStopAnn :: [jiroAnn]) =
      collectValueText "surname" [taroAnn] :=
  ⟨⟨by decide, by decide!⟩,
   c5_stop_word_halts "surname" dateStopAnn [taroAnn] [jiroAnn] (by decide) (by decide!)⟩

/-- The normalization pass never leaves a space character: its last
step filters every space out (and the empty string has none). -/
theorem normalizeText_no_space (s : String) : ' ' ∉ (normalizeText s).data := by
  unfold normalizeText
  split
  · rename_i h
    subst h
    decide
  · intro hm
    have h2 := (List.mem_filter.mp hm).2
    simp at h2

/-- C9: in the merged record, every field other than `raw_mrz` contains
no space character (the final `normalize_text` pass deletes every
space); a concrete consequence: the two spatial value tokens `TARO`,
`JIRO` below a `Given` label emerge concatenated as `TAROJIRO`, with
the single-space join separator deleted. -/
theorem c9_merged_fields_spaceless :
    (∀ (cy : Nat) (r : Response),
      ' ' ∉ (parseResponse cy r).passport_no.data ∧
      ' ' ∉ (parseResponse cy r).surname.data ∧
      ' ' ∉ (parseResponse cy r).given_name.data ∧
      ' ' ∉ (parseResponse cy r).birth_date.data ∧
      ' ' ∉ (parseResponse cy r).sex.data ∧
      ' ' ∉ (parseResponse cy r).nationality.data ∧
      ' ' ∉ (parseResponse cy r).domicile.data ∧
      ' ' ∉ (parseResponse cy r).issue_date.data ∧
      ' ' ∉ (parseResponse cy r).expiry_date.data) ∧
    collectValueText "given_name" [taroAnn, jiroAnn] = "TARO JIRO" ∧
    (parseResponse 26 respTaroJiro).given_name = "TAROJIRO" :=
  ⟨fun cy r =>
    ⟨normalizeText_no_space _, normalizeText_no_space _, normalizeText_no_space _,
     normalizeText_no_space _, normalizeText_no_space _, normalizeText_no_space _,
     normalizeText_no_space _, normalizeText_no_space _, normalizeText_no_space _⟩,
   by decide!, by decide!⟩

/-- C8 counterexample: `normalize_text` is not idempotent.  On
`"e ́"` (letter `e`, space, combining acute accent) the first pass
removes the space, leaving the mark adjacent to the base letter; the
second pass's NFKC step composes them into `é`. -/
theorem c8_not_idempotent_counterexample :
    normalizeText (normalizeText "e ́") ≠ normalizeText "e ́" := by
  decide!

/-- The model reproduces the Hangul non-idempotence of CPython: on
L jamo, space, V jamo the first pass removes the space and the second
pass's NFKC step composes the now-adjacent jamo pair into a syllable
(so even mark-free strings can break idempotence). -/
theorem nfkc_hangul_example :
    normalizeText (normalizeText "\u1100 \u1161") ≠ normalizeText "\u1100 \u1161" := by
  decide!

/-- The model reproduces the diaeresis non-idempotence of CPython: the
compatibility decomposition of `\u00A8` emits a space followed by a
combining mark, the first pass deletes that space, and the second pass
composes the mark onto the preceding letter. -/
theorem nfkc_diaeresis_example :
    normalizeText (normalizeText "a\u00A8b") ≠ normalizeText "a\u00A8b" := by
  decide!

/-- Every character produced by the compatibility decomposition is a
fixed point of it. -/
theorem decompNF_output_fixed : ∀ c0 c, c ∈ decompNF c0 → decompNF c = [c] := by
  intro c0 c h
  unfold decompNF at h
  split_ifs at h with h1 h2 h3 h4 h5 h6 h7
  · simp at h; subst h; rfl
  · simp at h; subst h; rfl
  · simp at h
    rcases h with h | h <;> subst h <;> rfl
  · simp at h; subst h; rfl
  · simp at h; subst h; rfl
  · simp at h; subst h; rfl
  · simp at h; subst h; rfl
  · simp at h
    subst h
    unfold decompNF
    rw [if_neg h1, if_neg h2, if_neg h3, if_neg h4, if_neg h5, if_neg h6, if_neg h7]

/-- Every character produced by canonical composition is a fixed point
of the compatibility decomposition. -/
theorem composePair_output_fixed (a b c : Char) (h : composePair a b = some c) :
    decompNF c = [c] := by
  unfold composePair at h
  split_ifs at h <;> simp at h <;> subst h <;> rfl

/-- A pair whose second character is neither a combining mark nor a
conjoining jamo never composes. -/
theorem composePair_none (a b : Char) (hm : isCombining b = false)
    (hj : isJamo b = false) : composePair a b = none := by
  simp only [isCombining, isJamo, Bool.or_eq_false_iff, decide_eq_false_iff_not] at hm hj
  simp [composePair, hm.1, hm.2, hj.1.2, hj.2]

/-- Composition is the identity on a list of inert characters (no
combining marks, no conjoining jamo). -/
theorem compGo_inert :
    ∀ (l : List Char) (a : Char),
      (∀ c ∈ l, isCombining c = false ∧ isJamo c = false) → compGo a l = a :: l := by
  intro l
  induction l with
  | nil => intro a _; rfl
  | cons b t ih =>
    intro a h
    rw [compGo,
      composePair_none a b (h b (List.mem_cons_self b t)).1 (h b (List.mem_cons_self b t)).2,
      ih b (fun c hc => h c (List.mem_cons_of_mem _ hc))]

theorem composeNFC_inert (l : List Char)
    (h : ∀ c ∈ l, isCombining c = false ∧ isJamo c = false) :
    composeNFC l = l := by
  cases l with
  | nil => rfl
  | cons a t => exact compGo_inert t a (fun c hc => h c (List.mem_cons_of_mem _ hc))

/-- Characters coming out of the composition pass are decomposition
fixed points, provided the incoming ones are. -/
theorem compGo_fixed :
    ∀ (l : List Char) (a : Char), decompNF a = [a] → (∀ c ∈ l, decompNF c = [c]) →
      ∀ c ∈ compGo a l, decompNF c = [c] := by
  intro l
  induction l with
  | nil =>
    intro a ha _ c hc
    rw [compGo] at hc
    simp at hc
    subst hc
    exact ha
  | cons b t ih =>
    intro a ha h c hc
    rw [compGo] at hc
    cases hcp : composePair a b with
    | some d =>
      rw [hcp] at hc
      exact ih d (composePair_output_fixed a b d hcp)
        (fun x hx => h x (List.mem_cons_of_mem _ hx)) c hc
    | none =>
      rw [hcp] at hc
      rcases List.mem_cons.mp hc with rfl | hc2
      · exact ha
      · exact ih b (h b (List.mem_cons_self b t))
          (fun x hx => h x (List.mem_cons_of_mem _ hx)) c hc2

theorem composeNFC_fixed (l : List Char) (h : ∀ c ∈ l, decompNF c = [c]) :
    ∀ c ∈ composeNFC l, decompNF c = [c] := by
  cases l with
  | nil => intro c hc; simp [composeNFC] at hc
  | cons a t =>
    exact compGo_fixed t a (h a (List.mem_cons_self a t))
      (fun c hc => h c (List.mem_cons_of_mem _ hc))

/-- Every character of an NFKC-normalized list is a decomposition fixed
point. -/
theorem nfkc_mem_fixed (l : List Char) : ∀ c ∈ nfkc l, decompNF c = [c] := by
  refine composeNFC_fixed _ ?_
  intro c hc
  rcases List.mem_flatten.mp hc with ⟨g, hg, hcg⟩
  rcases List.mem_map.mp hg with ⟨c0, _, rfl⟩
  exact decompNF_output_fixed c0 c hcg

/-- Decomposing a list of decomposition fixed points is the identity. -/
theorem flatten_decompNF_fixed (l : List Char) (h : ∀ c ∈ l, decompNF c = [c]) :
    (l.map decompNF).flatten = l := by
  induction l with
  | nil => rfl
  | cons a t ih =>
    simp only [List.map_cons, List.flatten_cons, h a (List.mem_cons_self a t)]
    rw [ih (fun c hc => h c (List.mem_cons_of_mem _ hc))]
    rfl

/-- The head of a lead-stripped list is not whitespace. -/
theorem stripLead_head_not_ws (l : List Char) :
    ∀ c, (stripLead l).head? = some c → isWsChar c = false := by
  induction l with
  | nil => intro c hc; simp [stripLead] at hc
  | cons a t ih =>
    intro c hc
    by_cases ha : isWsChar a = true
    · rw [stripLead, List.dropWhile_cons_of_pos ha] at hc
      exact ih c hc
    · rw [stripLead, List.dropWhile_cons_of_neg ha] at hc
      simp only [List.head?_cons, Option.some.injEq] at hc
      subst hc
      exact Bool.eq_false_iff.mpr ha

/-- The last element of a trail-stripped list is not whitespace. -/
theorem stripTrail_getLast_not_ws (l : List Char) :
    ∀ c, (stripTrail l).getLast? = some c → isWsChar c = false := by
  intro c hc
  unfold stripTrail at hc
  rw [List.getLast?_reverse] at hc
  exact stripLead_head_not_ws l.reverse c hc

theorem stripTrail_isPrefix (l : List Char) : stripTrail l <+: l := by
  unfold stripTrail
  have h : l.reverse.dropWhile isWsChar <:+ l.reverse := List.dropWhile_suffix _
  have h2 := h.reverse
  rwa [List.reverse_reverse] at h2

/-- The head of a fully stripped list is not whitespace. -/
theorem stripChars_head_not_ws (l : List Char) :
    ∀ c, (stripChars l).head? = some c → isWsChar c = false := by
  intro c hc
  unfold stripChars at hc
  rcases stripTrail_isPrefix (stripLead l) with ⟨tl, htl⟩
  rcases hx : stripTrail (stripLead l) with _ | ⟨x, xs⟩
  · rw [hx] at hc; simp at hc
  · rw [hx] at hc htl
    simp only [List.head?_cons, Option.some.injEq] at hc
    rw [← hc]
    exact stripLead_head_not_ws l x (by rw [← htl]; rfl)

theorem stripChars_getLast_not_ws (l : List Char) :
    ∀ c, (stripChars l).getLast? = some c → isWsChar c = false := by
  intro c hc
  exact stripTrail_getLast_not_ws (stripLead l) c hc

/-- Stripping is the identity on a list whose ends are not whitespace. -/
theorem stripLead_of_head (l : List Char)
    (h : ∀ c, l.head? = some c → isWsChar c = false) : stripLead l = l := by
  cases l with
  | nil => rfl
  | cons a t =>
    have ha := h a rfl
    rw [stripLead, List.dropWhile_cons_of_neg (by simp [ha])]

theorem stripTrail_of_getLast (l : List Char)
    (h : ∀ c, l.getLast? = some c → isWsChar c = false) : stripTrail l = l := by
  unfold stripTrail
  have : l.reverse.dropWhile isWsChar = l.reverse := by
    cases hr : l.reverse with
    | nil => rfl
    | cons a t =>
      have ha : l.getLast? = some a := by
        rw [← List.head?_reverse, hr]; rfl
      rw [List.dropWhile_cons_of_neg (by simp [h a ha])]
  rw [this, List.reverse_reverse]

theorem stripChars_of_ends (l : List Char)
    (hh : ∀ c, l.head? = some c → isWsChar c = false)
    (hl : ∀ c, l.getLast? = some c → isWsChar c = false) : stripChars l = l := by
  unfold stripChars
  rw [stripLead_of_head l hh, stripTrail_of_getLast l hl]

/-- Filtering the spaces out preserves a non-whitespace head property. -/
theorem filter_sp_head (l : List Char)
    (h : ∀ c, l.head? = some c → isWsChar c = false) :
    ∀ c, ((l.filter (fun d => d ≠ ' ')).head? = some c) → isWsChar c = false := by
  cases l with
  | nil => intro c hc; simp at hc
  | cons a t =>
    have ha := h a rfl
    intro c hc
    have hane : ¬(a = ' ') := by
      intro e; subst e; exact absurd ha (by decide)
    rw [List.filter_cons_of_pos (by simp [hane])] at hc
    simp only [List.head?_cons, Option.some.injEq] at hc
    subst hc
    exact ha

theorem filter_sp_getLast (l : List Char)
    (h : ∀ c, l.getLast? = some c → isWsChar c = false) :
    ∀ c, ((l.filter (fun d => d ≠ ' ')).getLast? = some c) → isWsChar c = false := by
  intro c hc
  rw [← List.head?_reverse, ← List.filter_reverse] at hc
  refine filter_sp_head l.reverse ?_ c hc
  intro d hd
  exact h d (by rwa [List.head?_reverse] at hd)

set_option maxHeartbeats 1000000 in
/-- C8 (amended): `normalize_text` is idempotent on every string whose
NFKC normal form contains no combining mark and no Hangul conjoining
jamo; in general it is not idempotent: deleting an internal space (or a
space emitted by a compatibility decomposition) can make characters
adjacent that the second pass's NFKC step composes -- a combining mark
onto a preceding base letter, or a Hangul jamo pair into a syllable
(see the counterexamples above). -/
theorem c8_idempotent_no_marks (s : String)
    (h : (nfkc s.data).all (fun c => !isCombining c && !isJamo c) = true) :
    normalizeText (normalizeText s) = normalizeText s := by
  by_cases hs : s = ""
  · subst hs; rfl
  · have hu : ∀ c ∈ nfkc s.data, isCombining c = false ∧ isJamo c = false := by
      intro c hc
      have h2 := List.all_eq_true.mp h c hc
      simp only [Bool.and_eq_true, Bool.not_eq_true'] at h2
      exact h2
    have hufix : ∀ c ∈ nfkc s.data, decompNF c = [c] := nfkc_mem_fixed s.data
    have hns : normalizeText s =
        ⟨(stripChars (nfkc s.data)).filter (fun c => c ≠ ' ')⟩ := by
      unfold normalizeText
      rw [if_neg hs]
    rw [hns]
    by_cases ht0 : (⟨(stripChars (nfkc s.data)).filter (fun c => c ≠ ' ')⟩ : String) = ""
    · rw [ht0]; rfl
    · have htsub :
          ∀ c ∈ (stripChars (nfkc s.data)).filter (fun d => d ≠ ' '),
            c ∈ nfkc s.data := by
        intro c hc
        have h1 : List.Sublist ((stripChars (nfkc s.data)).filter (fun d => d ≠ ' '))
            (stripChars (nfkc s.data)) := List.filter_sublist _
        have h2 : List.Sublist (stripChars (nfkc s.data)) (nfkc s.data) := by
          unfold stripChars
          exact (stripTrail_isPrefix _).sublist.trans (List.dropWhile_sublist _)
        exact (h1.trans h2).subset hc
      have htinert : ∀ c ∈ (stripChars (nfkc s.data)).filter (fun d => d ≠ ' '),
          isCombining c = false ∧ isJamo c = false :=
        fun c hc => hu c (htsub c hc)
      have htfix : ∀ c ∈ (stripChars (nfkc s.data)).filter (fun d => d ≠ ' '),
          decompNF c = [c] :=
        fun c hc => hufix c (htsub c hc)
      have hnf2 : nfkc ((stripChars (nfkc s.data)).filter (fun d => d ≠ ' ')) =
          (stripChars (nfkc s.data)).filter (fun d => d ≠ ' ') := by
        show composeNFC ((((stripChars (nfkc s.data)).filter
            (fun d => d ≠ ' ')).map decompNF).flatten) =
          (stripChars (nfkc s.data)).filter (fun d => d ≠ ' ')
        rw [flatten_decompNF_fixed _ htfix]
        exact composeNFC_inert _ htinert
      have hhead : ∀ c,
          ((stripChars (nfkc s.data)).filter (fun d => d ≠ ' ')).head? = some c →
            isWsChar c = false :=
        filter_sp_head _ (stripChars_head_not_ws (nfkc s.data))
      have hlast : ∀ c,
          ((stripChars (nfkc s.data)).filter (fun d => d ≠ ' ')).getLast? = some c →
            isWsChar c = false :=
        filter_sp_getLast _ (stripChars_getLast_not_ws (nfkc s.data))
      have hstript : stripChars ((stripChars (nfkc s.data)).filter (fun d => d ≠ ' ')) =
          (stripChars (nfkc s.data)).filter (fun d => d ≠ ' ') :=
        stripChars_of_ends _ hhead hlast
      have hfilt : ((stripChars (nfkc s.data)).filter (fun d => d ≠ ' ')).filter
          (fun d => d ≠ ' ') = (stripChars (nfkc s.data)).filter (fun d => d ≠ ' ') := by
        refine List.filter_eq_self.mpr ?_
        intro a ha
        exact (List.mem_filter.mp ha).2
      show normalizeText ⟨(stripChars (nfkc s.data)).filter (fun c => c ≠ ' ')⟩ =
        ⟨(stripChars (nfkc s.data)).filter (fun c => c ≠ ' ')⟩
      unfold normalizeText
      rw [if_neg ht0]
      show (⟨(stripChars (nfkc ((stripChars (nfkc s.data)).filter (fun c => c ≠ ' ')))).filter
        (fun c => c ≠ ' ')⟩ : String) =
        ⟨(stripChars (nfkc s.data)).filter (fun c => c ≠ ' ')⟩
      rw [hnf2, hstript, hfilt]

/-- Witness for C8's amended statement: the NFKC form of a mark-free,
jamo-free string with full-width letters and internal spaces satisfies
the hypothesis, and one normalization pass reaches a fixed point. -/
theorem c8_idempotent_no_marks_witness :
    ((nfkc "ＫＡ NATA".data).all (fun c => !isCombining c && !isJamo c) = true) ∧
    normalizeText (normalizeText "ＫＡ NATA") = normalizeText "ＫＡ NATA" :=
  ⟨by decide!, c8_idempotent_no_marks _ (by decide!)⟩

end PassportOCR





